import Mathlib

/-!
Shallow embedding of the core decision logic of the `gui-playground` repository:
the Mastermind guess evaluator and puzzle state machine (`src/mastermind.rs`)
and the turn-time tracker (`src/turn_time_tracker.rs`).  Rust fixed arrays
`[Color; 4]` are modelled as `List Color` (with explicit length facts where a
claim needs them), `usize` as `Nat`, `Duration`/`SystemTime` as `Nat`, and
panics / `expect` failures as `Option.none`.
-/

namespace GuiPlayground

/-- The six peg colors (`enum Color` in `src/mastermind.rs`). -/
inductive Color : Type
  | Red
  | Orange
  | Yellow
  | Green
  | Blue
  | Purple
  deriving DecidableEq, Repr, Fintype

/-- `NUM_COLORS` constant from `src/mastermind.rs`. -/
def NUM_COLORS : Nat := 6

/-- `COLOR_PALETTE` constant from `src/mastermind.rs`. -/
def COLOR_PALETTE : List Color :=
  [Color.Red, Color.Orange, Color.Yellow, Color.Green, Color.Blue, Color.Purple]

/-- `NUM_SLOTS_PER_ROW` constant (N = 4). -/
def NUM_SLOTS_PER_ROW : Nat := 4

/-- `NUM_GUESSES` constant (G = 8). -/
def NUM_GUESSES : Nat := 8

/-- `struct CompleteRow`: a scored guess. -/
structure CompleteRow where
  guess : List Color
  num_correct_hits : Nat
  num_misplaced_hits : Nat
  deriving DecidableEq, Repr

/-- First pass of `evaluate_guess`: the list of `(guess[i], password[i])` pairs
at positions that are NOT exact hits (the `else` branch that feeds both
"eligible for misplaced hits" maps). -/
def mismatchedPairs (guess password : List Color) : List (Color × Color) :=
  (guess.zip password).filter (fun p => !(p.1 == p.2))

/-- Multiset (as a list) of guess colors eligible for misplaced hits,
i.e. the keys/counts of `guess_colors_eligible_for_misplaced_hits`. -/
def leftoverGuessColors (guess password : List Color) : List Color :=
  (mismatchedPairs guess password).map Prod.fst

/-- Multiset (as a list) of password colors eligible for misplaced hits,
i.e. the keys/counts of `password_colors_eligible_for_misplaced_hits`. -/
def leftoverPasswordColors (guess password : List Color) : List Color :=
  (mismatchedPairs guess password).map Prod.snd

/-- Second pass of `evaluate_guess`: for each distinct color present in the
leftover guess colors, add `min(guess_color_count, password_color_count)`.
The Rust iterates the entries of the guess-side `HashMap`; here that is the
deduplicated list of leftover guess colors, with `List.count` playing the
role of the stored counts. -/
def misplacedHits (lg lp : List Color) : Nat :=
  (lg.dedup.map (fun c => min (lg.count c) (lp.count c))).sum

/-- `evaluate_guess` from `src/mastermind.rs`: two-pass scoring of a guess
against the password, returning the `CompleteRow` record. -/
def evaluate_guess (guess password : List Color) : CompleteRow :=
  { guess := guess
    num_correct_hits := (guess.zip password).countP (fun p => p.1 == p.2)
    num_misplaced_hits :=
      misplacedHits (leftoverGuessColors guess password)
        (leftoverPasswordColors guess password) }

example :
    (evaluate_guess [Color.Red, Color.Red, Color.Red, Color.Red]
      [Color.Red, Color.Red, Color.Red, Color.Red]).num_correct_hits = 4 := by decide

example :
    (evaluate_guess [Color.Red, Color.Yellow, Color.Red, Color.Orange]
      [Color.Red, Color.Orange, Color.Yellow, Color.Green]).num_correct_hits = 1 := by
  decide

example :
    (evaluate_guess [Color.Red, Color.Yellow, Color.Red, Color.Orange]
      [Color.Red, Color.Orange, Color.Yellow, Color.Green]).num_misplaced_hits = 2 := by
  decide

example :
    (evaluate_guess [Color.Green, Color.Yellow, Color.Red, Color.Orange]
      [Color.Red, Color.Orange, Color.Yellow, Color.Green]).num_misplaced_hits = 4 := by
  decide

/-- The second-pass sum over the distinct leftover guess colors equals the sum
of `min` of leftover counts over the whole (finite) color type: colors absent
from the leftover guess list contribute `min 0 _ = 0`. -/
lemma misplacedHits_eq_univ_sum (lg lp : List Color) :
    misplacedHits lg lp = ∑ c : Color, min (lg.count c) (lp.count c) := by
  unfold misplacedHits
  rw [← List.sum_toFinset _ (List.nodup_dedup lg)]
  refine Finset.sum_subset (Finset.subset_univ _) ?_
  intro c _ hc
  have hmem : c ∉ lg := by
    intro h
    exact hc (List.mem_toFinset.mpr (List.mem_dedup.mpr h))
  rw [List.count_eq_zero_of_not_mem hmem]
  simp

/-- Summing a list's color counts over all colors gives its length. -/
lemma sum_count_univ (l : List Color) : (∑ c : Color, l.count c) = l.length := by
  rw [← List.sum_toFinset_count_eq_length l]
  refine (Finset.sum_subset (Finset.subset_univ _) ?_).symm
  intro c _ hc
  exact List.count_eq_zero_of_not_mem (fun h => hc (List.mem_toFinset.mpr h))

/-- Swapping the two arguments of the first pass swaps the roles of the two
leftover lists. -/
lemma mismatchedPairs_swap (a b : List Color) :
    mismatchedPairs b a = (mismatchedPairs a b).map Prod.swap := by
  unfold mismatchedPairs
  rw [← List.zip_swap a b, List.filter_map]
  congr 1
  refine List.filter_congr ?_
  intro p _
  simp only [Function.comp_apply, Prod.fst_swap, Prod.snd_swap]
  rw [Bool.beq_comm]

lemma leftoverGuessColors_swap (a b : List Color) :
    leftoverGuessColors b a = leftoverPasswordColors a b := by
  unfold leftoverGuessColors leftoverPasswordColors
  rw [mismatchedPairs_swap, List.map_map]
  rfl

lemma leftoverPasswordColors_swap (a b : List Color) :
    leftoverPasswordColors b a = leftoverGuessColors a b := by
  unfold leftoverGuessColors leftoverPasswordColors
  rw [mismatchedPairs_swap, List.map_map]
  rfl

lemma num_correct_hits_swap (a b : List Color) :
    (evaluate_guess b a).num_correct_hits = (evaluate_guess a b).num_correct_hits := by
  show (b.zip a).countP _ = (a.zip b).countP _
  rw [← List.zip_swap a b, List.countP_map]
  refine List.countP_congr ?_
  intro p _
  simp only [Function.comp_apply, Prod.fst_swap, Prod.snd_swap]
  rw [Bool.beq_comm]

lemma num_misplaced_hits_swap (a b : List Color) :
    (evaluate_guess b a).num_misplaced_hits = (evaluate_guess a b).num_misplaced_hits := by
  show misplacedHits _ _ = misplacedHits _ _
  rw [leftoverGuessColors_swap a b, leftoverPasswordColors_swap a b,
    misplacedHits_eq_univ_sum, misplacedHits_eq_univ_sum]
  exact Finset.sum_congr rfl (fun c _ => Nat.min_comm _ _)

/-- A list of pairs splits into the positions satisfying the exact-hit test
and the positions feeding the leftover multisets. -/
lemma countP_hit_add_countP_miss (l : List (Color × Color)) :
    l.countP (fun p => p.1 == p.2) + l.countP (fun p => !(p.1 == p.2)) = l.length := by
  have h := List.length_eq_countP_add_countP (p := fun p : Color × Color => p.1 == p.2) l
  have h2 : l.countP (fun p : Color × Color => ¬(p.1 == p.2))
      = l.countP (fun p => !(p.1 == p.2)) := by
    refine List.countP_congr ?_
    intro x _
    simp
  omega

/-- The misplaced-hit count is bounded by the number of leftover guess pegs. -/
lemma misplacedHits_le_length (lg lp : List Color) :
    misplacedHits lg lp ≤ lg.length := by
  rw [misplacedHits_eq_univ_sum, ← sum_count_univ lg]
  exact Finset.sum_le_sum (fun c _ => Nat.min_le_left _ _)

/-- Core bound: correct hits plus misplaced hits never exceed the number of
compared positions. -/
lemma hits_le_zip_length (a b : List Color) :
    (evaluate_guess a b).num_correct_hits + (evaluate_guess a b).num_misplaced_hits
      ≤ (a.zip b).length := by
  have h1 : (evaluate_guess a b).num_misplaced_hits ≤ (leftoverGuessColors a b).length :=
    misplacedHits_le_length _ _
  have h2 : (leftoverGuessColors a b).length
      = (a.zip b).countP (fun p => !(p.1 == p.2)) := by
    unfold leftoverGuessColors mismatchedPairs
    rw [List.length_map, ← List.countP_eq_length_filter]
  have h3 := countP_hit_add_countP_miss (a.zip b)
  have h4 : (evaluate_guess a b).num_correct_hits
      = (a.zip b).countP (fun p => p.1 == p.2) := rfl
  omega

/-- Claim C1: for every pair of sequences `a`, `b` of length N over the
K-value alphabet, `evaluate_guess a b` and `evaluate_guess b a` yield the
same `num_correct_hits` (exact hits) and the same `num_misplaced_hits`
(value hits): the scorer is symmetric in its two arguments. -/
theorem claim_C1_evaluate_symmetric (a b : List Color)
    (_h1 : a.length = NUM_SLOTS_PER_ROW) (_h2 : b.length = NUM_SLOTS_PER_ROW) :
    (evaluate_guess a b).num_correct_hits = (evaluate_guess b a).num_correct_hits ∧
    (evaluate_guess a b).num_misplaced_hits = (evaluate_guess b a).num_misplaced_hits :=
  ⟨(num_correct_hits_swap a b).symm, (num_misplaced_hits_swap a b).symm⟩

/-- Witness for C1 at a concrete pair of length-4 sequences. -/
theorem claim_C1_witness :
    (evaluate_guess [Color.Red, Color.Yellow, Color.Red, Color.Orange]
        [Color.Red, Color.Orange, Color.Yellow, Color.Green]).num_correct_hits
      = (evaluate_guess [Color.Red, Color.Orange, Color.Yellow, Color.Green]
        [Color.Red, Color.Yellow, Color.Red, Color.Orange]).num_correct_hits ∧
    (evaluate_guess [Color.Red, Color.Yellow, Color.Red, Color.Orange]
        [Color.Red, Color.Orange, Color.Yellow, Color.Green]).num_misplaced_hits
      = (evaluate_guess [Color.Red, Color.Orange, Color.Yellow, Color.Green]
        [Color.Red, Color.Yellow, Color.Red, Color.Orange]).num_misplaced_hits :=
  claim_C1_evaluate_symmetric _ _ (by decide) (by decide)

/-- Claim C2: for every pair of length-N sequences, the result of
`evaluate_guess` satisfies `exact_hits + value_hits ≤ N`, and both counts are
nonnegative. -/
theorem claim_C2_hits_bound (a b : List Color)
    (ha : a.length = NUM_SLOTS_PER_ROW) (hb : b.length = NUM_SLOTS_PER_ROW) :
    (evaluate_guess a b).num_correct_hits + (evaluate_guess a b).num_misplaced_hits
        ≤ NUM_SLOTS_PER_ROW ∧
    0 ≤ (evaluate_guess a b).num_correct_hits ∧
    0 ≤ (evaluate_guess a b).num_misplaced_hits := by
  refine ⟨?_, Nat.zero_le _, Nat.zero_le _⟩
  have h := hits_le_zip_length a b
  rw [List.length_zip, ha, hb, Nat.min_self] at h
  exact h

/-- Witness for C2 at a concrete pair of length-4 sequences. -/
theorem claim_C2_witness :
    (evaluate_guess [Color.Green, Color.Yellow, Color.Red, Color.Orange]
          [Color.Red, Color.Orange, Color.Yellow, Color.Green]).num_correct_hits
        + (evaluate_guess [Color.Green, Color.Yellow, Color.Red, Color.Orange]
          [Color.Red, Color.Orange, Color.Yellow, Color.Green]).num_misplaced_hits
        ≤ NUM_SLOTS_PER_ROW ∧
    0 ≤ (evaluate_guess [Color.Green, Color.Yellow, Color.Red, Color.Orange]
          [Color.Red, Color.Orange, Color.Yellow, Color.Green]).num_correct_hits ∧
    0 ≤ (evaluate_guess [Color.Green, Color.Yellow, Color.Red, Color.Orange]
          [Color.Red, Color.Orange, Color.Yellow, Color.Green]).num_misplaced_hits :=
  claim_C2_hits_bound _ _ (by decide) (by decide)

/-- Claim C10: the `CompleteRow` returned by `evaluate_guess` records the
submitted guess verbatim in its `guess` field; the scorer never alters the
guess it scores. -/
theorem claim_C10_guess_recorded_verbatim (g t : List Color) :
    (evaluate_guess g t).guess = g := rfl

/-- `enum GameState` from `src/mastermind.rs`: `InProgress` carries the
partially filled working row. -/
inductive GameState : Type
  | InProgress (working_row : List (Option Color))
  | Victory
  | TooManyGuesses
  deriving DecidableEq, Repr

/-- The per-tick inputs consumed by `MastermindGame::update`, made explicit:
a number-key press selecting a palette color, a mouse click resolved by
`guess_circles_ij::get_containing_ij` to a circle coordinate `(i, j)`, and
whether the submit key (space) was pressed. -/
structure MastermindInput where
  selectColor : Option Color
  click : Option (Nat × Nat)
  submitPressed : Bool
  deriving DecidableEq, Repr

/-- `struct MastermindGame`, restricted to its core fields (the `mouse_moved`
rendering workaround is presentation-only and carries no game state). -/
structure MastermindGame where
  state : GameState
  password : List Color
  history : List CompleteRow
  mouse_color : Color
  deriving DecidableEq, Repr

/-- `convert_working_row_if_completed`: `none` when any slot is empty,
otherwise the unwrapped row. -/
def convert_working_row_if_completed (working_row : List (Option Color)) :
    Option (List Color) :=
  if working_row.contains none then none
  else some working_row.reduceOption

/-- `MastermindGame::update` (core logic, one tick): in `InProgress`, first
update the mouse color from a number-key press, then set a working-row slot
if the click lands on the working row (`j = NUM_GUESSES - history.len()`),
then — if the submit key was pressed and the working row is complete — score
the guess, append it to the history and transition; terminal states ignore
all input. -/
def MastermindGame.update (g : MastermindGame) (input : MastermindInput) :
    MastermindGame :=
  match g.state with
  | GameState.InProgress working_row =>
    let mouse_color :=
      match input.selectColor with
      | some c => c
      | none => g.mouse_color
    let working_row :=
      match input.click with
      | some (i, j) =>
        if j = NUM_GUESSES - g.history.length then working_row.set i (some mouse_color)
        else working_row
      | none => working_row
    if input.submitPressed then
      match convert_working_row_if_completed working_row with
      | some guess =>
        let complete_row := evaluate_guess guess g.password
        let history := g.history ++ [complete_row]
        let state :=
          if complete_row.num_correct_hits = NUM_SLOTS_PER_ROW then GameState.Victory
          else if history.length = NUM_GUESSES then GameState.TooManyGuesses
          else GameState.InProgress (List.replicate NUM_SLOTS_PER_ROW none)
        { state := state, password := g.password, history := history,
          mouse_color := mouse_color }
      | none =>
        { state := GameState.InProgress working_row, password := g.password,
          history := g.history, mouse_color := mouse_color }
    else
      { state := GameState.InProgress working_row, password := g.password,
        history := g.history, mouse_color := mouse_color }
  | GameState.Victory => g
  | GameState.TooManyGuesses => g

/-- The input representing a bare press of the submit key. -/
def submitOnly : MastermindInput :=
  { selectColor := none, click := none, submitPressed := true }

/-- Claim C3: after a completed submission while `InProgress`, the scored
guess is appended to the history; if it has `num_correct_hits = N` the state
becomes `Victory` (winning takes priority regardless of the guess count, even
on the G-th guess); otherwise if the history now holds G entries the state
becomes `TooManyGuesses`; otherwise the state is `InProgress` with a new
all-empty working row. -/
theorem claim_C3_submission_transition (g : MastermindGame)
    (wr : List (Option Color)) (guess : List Color)
    (hstate : g.state = GameState.InProgress wr)
    (hcomplete : convert_working_row_if_completed wr = some guess) :
    (MastermindGame.update g submitOnly).history
        = g.history ++ [evaluate_guess guess g.password] ∧
    ((evaluate_guess guess g.password).num_correct_hits = NUM_SLOTS_PER_ROW →
      (MastermindGame.update g submitOnly).state = GameState.Victory) ∧
    ((evaluate_guess guess g.password).num_correct_hits ≠ NUM_SLOTS_PER_ROW →
      g.history.length + 1 = NUM_GUESSES →
      (MastermindGame.update g submitOnly).state = GameState.TooManyGuesses) ∧
    ((evaluate_guess guess g.password).num_correct_hits ≠ NUM_SLOTS_PER_ROW →
      g.history.length + 1 ≠ NUM_GUESSES →
      (MastermindGame.update g submitOnly).state
        = GameState.InProgress (List.replicate NUM_SLOTS_PER_ROW none)) := by
  cases g with
  | mk state password history mouse_color =>
    simp only at hstate
    subst hstate
    refine ⟨?_, ?_, ?_, ?_⟩
    · simp [MastermindGame.update, submitOnly, hcomplete]
    · intro hwin
      simp [MastermindGame.update, submitOnly, hcomplete, hwin]
    · intro hmiss hfull
      simp [MastermindGame.update, submitOnly, hcomplete, hmiss, hfull]
    · intro hmiss hnotfull
      simp [MastermindGame.update, submitOnly, hcomplete, hmiss, hnotfull]

/-- Concrete in-progress game used to witness C3: a completed working row
that exactly matches the password. -/
def exWinRow : List (Option Color) :=
  [some Color.Red, some Color.Orange, some Color.Yellow, some Color.Green]

/-- The guess obtained by unwrapping `exWinRow`. -/
def exWinGuess : List Color :=
  [Color.Red, Color.Orange, Color.Yellow, Color.Green]

/-- Concrete game state used to witness C3. -/
def exWinGame : MastermindGame :=
  { state := GameState.InProgress exWinRow
    password := [Color.Red, Color.Orange, Color.Yellow, Color.Green]
    history := []
    mouse_color := Color.Red }

/-- Witness for C3 at a concrete completed submission. -/
theorem claim_C3_witness :
    (MastermindGame.update exWinGame submitOnly).history
        = exWinGame.history ++ [evaluate_guess exWinGuess exWinGame.password] ∧
    ((evaluate_guess exWinGuess exWinGame.password).num_correct_hits
        = NUM_SLOTS_PER_ROW →
      (MastermindGame.update exWinGame submitOnly).state = GameState.Victory) ∧
    ((evaluate_guess exWinGuess exWinGame.password).num_correct_hits
        ≠ NUM_SLOTS_PER_ROW →
      exWinGame.history.length + 1 = NUM_GUESSES →
      (MastermindGame.update exWinGame submitOnly).state
        = GameState.TooManyGuesses) ∧
    ((evaluate_guess exWinGuess exWinGame.password).num_correct_hits
        ≠ NUM_SLOTS_PER_ROW →
      exWinGame.history.length + 1 ≠ NUM_GUESSES →
      (MastermindGame.update exWinGame submitOnly).state
        = GameState.InProgress (List.replicate NUM_SLOTS_PER_ROW none)) :=
  claim_C3_submission_transition exWinGame exWinRow exWinGuess rfl (by decide)

/-- Claim C4: submitting while the working row still has an empty slot is a
complete no-op: nothing is appended to the history and the whole core state
(state tag, working row, history, password) is unchanged. -/
theorem claim_C4_incomplete_submit_noop (g : MastermindGame)
    (wr : List (Option Color))
    (hstate : g.state = GameState.InProgress wr)
    (hempty : none ∈ wr) :
    MastermindGame.update g submitOnly = g := by
  have hconv : convert_working_row_if_completed wr = none := by
    unfold convert_working_row_if_completed
    rw [if_pos]
    exact List.elem_eq_true_of_mem hempty
  cases g with
  | mk state password history mouse_color =>
    simp only at hstate
    subst hstate
    simp [MastermindGame.update, submitOnly, hconv]

/-- Concrete incomplete working row used to witness C4. -/
def exIncompleteRow : List (Option Color) :=
  [some Color.Red, none, some Color.Yellow, some Color.Green]

/-- Concrete game state used to witness C4. -/
def exIncompleteGame : MastermindGame :=
  { state := GameState.InProgress exIncompleteRow
    password := [Color.Red, Color.Orange, Color.Yellow, Color.Green]
    history := []
    mouse_color := Color.Red }

/-- Witness for C4 at a concrete incomplete row. -/
theorem claim_C4_witness :
    MastermindGame.update exIncompleteGame submitOnly = exIncompleteGame :=
  claim_C4_incomplete_submit_noop exIncompleteGame exIncompleteRow rfl (by decide)

/-- Claim C7: once the puzzle is terminal (`Victory` or `TooManyGuesses`),
every subsequent driver tick leaves the state tag, the history and the
password (target) unchanged. -/
theorem claim_C7_terminal_frozen (g : MastermindGame)
    (hterm : g.state = GameState.Victory ∨ g.state = GameState.TooManyGuesses)
    (input : MastermindInput) :
    (MastermindGame.update g input).state = g.state ∧
    (MastermindGame.update g input).history = g.history ∧
    (MastermindGame.update g input).password = g.password := by
  have hfix : MastermindGame.update g input = g := by
    rcases hterm with h | h <;> simp [MastermindGame.update, h]
  rw [hfix]
  exact ⟨rfl, rfl, rfl⟩

/-- Concrete terminal (won) game used to witness C7. -/
def exTerminalGame : MastermindGame :=
  { state := GameState.Victory
    password := [Color.Red, Color.Orange, Color.Yellow, Color.Green]
    history := [evaluate_guess [Color.Red, Color.Orange, Color.Yellow, Color.Green]
      [Color.Red, Color.Orange, Color.Yellow, Color.Green]]
    mouse_color := Color.Red }

/-- Witness for C7 at a concrete terminal game and a concrete tick input. -/
theorem claim_C7_witness :
    (MastermindGame.update exTerminalGame submitOnly).state = exTerminalGame.state ∧
    (MastermindGame.update exTerminalGame submitOnly).history
      = exTerminalGame.history ∧
    (MastermindGame.update exTerminalGame submitOnly).password
      = exTerminalGame.password :=
  claim_C7_terminal_frozen exTerminalGame (Or.inl rfl) submitOnly

/-- `struct Player` from `src/turn_time_tracker.rs`; the display color is an
opaque tag and `Duration` is modelled as a `Nat` number of time units. -/
structure Player where
  display_name : String
  display_color : Nat
  num_turns : Nat
  total_time : Nat
  deriving DecidableEq, Repr

/-- `InfiniteIterator<T>` from `src/turn_time_tracker.rs`: an owned ordered
collection with a wrap-around cursor. -/
structure InfiniteIterator (T : Type) where
  items : List T
  current_index : Nat
  deriving DecidableEq, Repr

namespace InfiniteIterator

variable {T : Type}

/-- `InfiniteIterator::new`. -/
def new (T : Type) : InfiniteIterator T :=
  { items := [], current_index := 0 }

/-- `InfiniteIterator::push`. -/
def push (it : InfiniteIterator T) (item : T) : InfiniteIterator T :=
  { it with items := it.items ++ [item] }

/-- `InfiniteIterator::check_invariants`: `true` exactly when the source's
panic guards pass (non-empty collection and in-range cursor). -/
def check_invariants (it : InfiniteIterator T) : Bool :=
  !it.items.isEmpty && decide (it.current_index < it.items.length)

/-- Read side of `InfiniteIterator::current_mut`: the current item, or `none`
where the source panics. -/
def current? (it : InfiniteIterator T) : Option T :=
  if it.check_invariants then it.items[it.current_index]? else none

/-- Writing a new value through the mutable reference returned by
`current_mut`. -/
def setCurrent (it : InfiniteIterator T) (x : T) : InfiniteIterator T :=
  { it with items := it.items.set it.current_index x }

/-- `InfiniteIterator::increment`: advance the cursor cyclically; `none`
models the panic on an empty collection. -/
def increment (it : InfiniteIterator T) : Option (InfiniteIterator T) :=
  if it.items.isEmpty then none
  else some { it with current_index := (it.current_index + 1) % it.items.length }

/-- `increment` applied `n` times in sequence. -/
def incrementN (it : InfiniteIterator T) : Nat → Option (InfiniteIterator T)
  | 0 => some it
  | n + 1 => it.increment.bind (fun it2 => incrementN it2 n)

end InfiniteIterator

/-- A successful `current?` means the panic guards passed and the item is the
one stored at the cursor. -/
lemma current?_eq_some {T : Type} {it : InfiniteIterator T} {x : T}
    (h : it.current? = some x) :
    it.current_index < it.items.length ∧ it.items[it.current_index]? = some x := by
  unfold InfiniteIterator.current? at h
  by_cases hc : it.check_invariants = true
  · rw [if_pos hc] at h
    unfold InfiniteIterator.check_invariants at hc
    simp only [Bool.and_eq_true, Bool.not_eq_true', List.isEmpty_eq_false,
      decide_eq_true_eq] at hc
    exact ⟨hc.2, h⟩
  · rw [if_neg hc] at h
    exact absurd h (by simp)

/-- Advancing `n` times from an in-range cursor lands on
`(current_index + n) % len` and never touches the items. -/
lemma incrementN_spec {T : Type} (it : InfiniteIterator T) (n : Nat)
    (hne : it.items ≠ []) (hci : it.current_index < it.items.length) :
    it.incrementN n
      = some { it with current_index := (it.current_index + n) % it.items.length } := by
  induction n generalizing it with
  | zero =>
    simp [InfiniteIterator.incrementN, Nat.mod_eq_of_lt hci]
  | succ n ih =>
    have hstep : it.increment
        = some { it with current_index := (it.current_index + 1) % it.items.length } := by
      unfold InfiniteIterator.increment
      rw [if_neg]
      simp [hne]
    have hlen : 0 < it.items.length := List.length_pos.mpr hne
    rw [InfiniteIterator.incrementN, hstep, Option.some_bind]
    rw [ih { it with current_index := (it.current_index + 1) % it.items.length }
      hne (Nat.mod_lt _ hlen)]
    have harith : ((it.current_index + 1) % it.items.length + n) % it.items.length
        = (it.current_index + (n + 1)) % it.items.length := by
      rw [Nat.mod_add_mod]
      congr 1
      omega
    simp only
    rw [harith]

/-- Claim C8: for every non-empty turn cycle of length L with an in-range
cursor, a single `increment` moves the cursor to `(current_index + 1) % L`,
and `increment` applied L times returns the cycle to its starting state. -/
theorem claim_C8_cycle_wrap {T : Type} (it : InfiniteIterator T) (L : Nat)
    (hL : it.items.length = L) (hne : it.items ≠ [])
    (hci : it.current_index < L) :
    it.increment = some { it with current_index := (it.current_index + 1) % L } ∧
    it.incrementN L = some it := by
  constructor
  · unfold InfiniteIterator.increment
    rw [if_neg, hL]
    simp [hne]
  · rw [incrementN_spec it L hne (hL ▸ hci), hL]
    rw [Nat.add_mod_right, Nat.mod_eq_of_lt hci]

/-- Concrete two-participant cycle used to witness C8. -/
def exCycle : InfiniteIterator Player :=
  { items :=
      [{ display_name := "Alice", display_color := 0, num_turns := 1, total_time := 5 },
       { display_name := "Bob", display_color := 1, num_turns := 2, total_time := 7 }]
    current_index := 1 }

/-- Witness for C8 on a concrete two-participant cycle. -/
theorem claim_C8_witness :
    exCycle.increment = some { exCycle with current_index := (exCycle.current_index + 1) % 2 } ∧
    exCycle.incrementN 2 = some exCycle :=
  claim_C8_cycle_wrap exCycle 2 rfl (by decide) (by decide)

/-- Claim C9: on an empty turn cycle, querying the current participant and
advancing both fail (the source panics; the model returns `none`) instead of
producing a value or changing state. -/
theorem claim_C9_empty_cycle_fails {T : Type} (it : InfiniteIterator T)
    (h : it.items = []) :
    it.current? = none ∧ it.increment = none := by
  constructor
  · unfold InfiniteIterator.current? InfiniteIterator.check_invariants
    simp [h]
  · unfold InfiniteIterator.increment
    simp [h]

/-- Witness for C9 on the freshly constructed empty cycle. -/
theorem claim_C9_witness :
    (InfiniteIterator.new Player).current? = none ∧
    (InfiniteIterator.new Player).increment = none :=
  claim_C9_empty_cycle_fails (InfiniteIterator.new Player) rfl

/-- `enum TimerState`: `Running` carries the instant the current accrual
interval began. -/
inductive TimerState : Type
  | Paused
  | Running (last_tick : Nat)
  deriving DecidableEq, Repr

/-- `struct TurnTimeTrackerState`. -/
structure TurnTimeTrackerState where
  players : InfiniteIterator Player
  timer : TimerState
  deriving DecidableEq, Repr

/-- The "band-aid" in `evaluate_state`: if the just-ticked player has
`num_turns == 0` (the initial player before any explicit turn change), set it
to 1. -/
def bandAidFirstTurn (p : Player) : Player :=
  if p.num_turns = 0 then { p with num_turns := 1 } else p

/-- `TurnTimeTrackerState::evaluate_state`, with the two key-press queries
(`KEY_PAUSE`, `KEY_NEXT_PLAYER`) made explicit Boolean inputs and the current
`SystemTime` a `Nat`.  `none` models the two panics: `current_mut` on an
invalid iterator and the `duration_since` underflow `expect`. -/
def evaluate_state (s : TurnTimeTrackerState) (now : Nat)
    (pausePressed nextPressed : Bool) : Option TurnTimeTrackerState :=
  match s.timer with
  | TimerState.Paused =>
    if pausePressed then some { s with timer := TimerState.Running now }
    else some s
  | TimerState.Running last_tick =>
    if pausePressed then some { s with timer := TimerState.Paused }
    else
      match s.players.current? with
      | none => none
      | some current_player =>
        if now < last_tick then none
        else
          let elapsed_tick_time := now - last_tick
          let ticked := bandAidFirstTurn
            { current_player with
              total_time := current_player.total_time + elapsed_tick_time }
          let players := s.players.setCurrent ticked
          if nextPressed then
            match players.increment with
            | none => none
            | some players2 =>
              match players2.current? with
              | none => none
              | some next_player =>
                some { players := players2.setCurrent
                         { next_player with num_turns := next_player.num_turns + 1 },
                       timer := TimerState.Running now }
          else
            some { players := players, timer := TimerState.Running now }

/-- The band-aid never changes the accumulated time. -/
lemma bandAidFirstTurn_total_time (p : Player) :
    (bandAidFirstTurn p).total_time = p.total_time := by
  unfold bandAidFirstTurn
  by_cases h : p.num_turns = 0 <;> simp [h]

/-- If the ticked player already has a nonzero turn count, the band-aid is the
identity. -/
lemma bandAidFirstTurn_of_turns_ne_zero (p : Player) (h : p.num_turns ≠ 0) :
    bandAidFirstTurn p = p := by
  unfold bandAidFirstTurn
  simp [h]

/-- Evaluating a plain running tick (no pause, no turn change) writes the
updated current player back in place and moves `last_tick` to `now`. -/
lemma evaluate_state_plain_tick (s : TurnTimeTrackerState) (t0 t1 : Nat) (p : Player)
    (htimer : s.timer = TimerState.Running t0) (ht : t0 ≤ t1)
    (hcur : s.players.current? = some p) :
    evaluate_state s t1 false false
      = some { players := s.players.setCurrent
                 (bandAidFirstTurn { p with total_time := p.total_time + (t1 - t0) }),
               timer := TimerState.Running t1 } := by
  unfold evaluate_state
  rw [htimer]
  simp only [Bool.false_eq_true, if_false, hcur]
  rw [if_neg (Nat.not_lt.mpr ht)]

/-- Claim C5: from a `Running` state with `last_tick = t0`, a tick at
`t1 ≥ t0` with no next-participant event adds exactly `t1 - t0` to the
current participant's total time, changes no other participant's total time,
leaves the cursor where it was, and sets `last_tick` to `t1`. -/
theorem claim_C5_tick_attribution (s : TurnTimeTrackerState) (t0 t1 : Nat) (p : Player)
    (htimer : s.timer = TimerState.Running t0) (ht : t0 ≤ t1)
    (hcur : s.players.current? = some p) :
    ∃ s2, evaluate_state s t1 false false = some s2 ∧
      s2.timer = TimerState.Running t1 ∧
      s2.players.current_index = s.players.current_index ∧
      (s2.players.items[s.players.current_index]?).map Player.total_time
        = some (p.total_time + (t1 - t0)) ∧
      ∀ j, j ≠ s.players.current_index →
        (s2.players.items[j]?).map Player.total_time
          = (s.players.items[j]?).map Player.total_time := by
  obtain ⟨hlt, _hget⟩ := current?_eq_some hcur
  refine ⟨_, evaluate_state_plain_tick s t0 t1 p htimer ht hcur, rfl, rfl, ?_, ?_⟩
  · simp only [InfiniteIterator.setCurrent]
    rw [List.getElem?_set_self hlt]
    simp [bandAidFirstTurn_total_time]
  · intro j hj
    simp only [InfiniteIterator.setCurrent]
    rw [List.getElem?_set_ne (Ne.symm hj)]

/-- Concrete participant used in the tracker witnesses. -/
def exAlice : Player :=
  { display_name := "Alice", display_color := 0, num_turns := 1, total_time := 5 }

/-- Concrete participant used in the tracker witnesses. -/
def exBob : Player :=
  { display_name := "Bob", display_color := 1, num_turns := 2, total_time := 7 }

/-- Concrete running tracker used to witness C5. -/
def exRunningTracker : TurnTimeTrackerState :=
  { players := { items := [exAlice, exBob], current_index := 0 }
    timer := TimerState.Running 10 }

/-- Witness for C5: a tick at time 25 from `last_tick = 10`. -/
theorem claim_C5_witness :
    ∃ s2, evaluate_state exRunningTracker 25 false false = some s2 ∧
      s2.timer = TimerState.Running 25 ∧
      s2.players.current_index = exRunningTracker.players.current_index ∧
      (s2.players.items[exRunningTracker.players.current_index]?).map Player.total_time
        = some (exAlice.total_time + (25 - 10)) ∧
      ∀ j, j ≠ exRunningTracker.players.current_index →
        (s2.players.items[j]?).map Player.total_time
          = (exRunningTracker.players.items[j]?).map Player.total_time :=
  claim_C5_tick_attribution exRunningTracker 10 25 exAlice rfl (by decide) (by decide)

/-- Evaluating a running tick with a turn-change event: the pre-advance
current player is ticked and written back, then the cursor advances one step
and the new current player's turn count is incremented. -/
lemma evaluate_state_next_tick (items : List Player) (ci t0 t1 : Nat) (p q : Player)
    (ht : t0 ≤ t1)
    (hp : (InfiniteIterator.mk items ci).current? = some p)
    (hq : (items.set ci
        (bandAidFirstTurn
          { p with total_time := p.total_time + (t1 - t0) }))[(ci + 1) % items.length]?
      = some q) :
    evaluate_state
        { players := InfiniteIterator.mk items ci, timer := TimerState.Running t0 }
        t1 false true
      = some { players := InfiniteIterator.mk
                 ((items.set ci
                     (bandAidFirstTurn
                       { p with total_time := p.total_time + (t1 - t0) })).set
                   ((ci + 1) % items.length)
                   { q with num_turns := q.num_turns + 1 })
                 ((ci + 1) % items.length),
               timer := TimerState.Running t1 } := by
  obtain ⟨hlt, hget⟩ := current?_eq_some hp
  simp only at hlt hget
  have hlen0 : 0 < items.length := Nat.lt_of_le_of_lt (Nat.zero_le _) hlt
  have hmod : (ci + 1) % items.length < items.length := Nat.mod_lt _ hlen0
  have hisE : (items.set ci
      (bandAidFirstTurn { p with total_time := p.total_time + (t1 - t0) })).isEmpty
      = false := by
    rw [List.isEmpty_eq_false]
    intro hnil
    have hlen2 : items.length = 0 := by simpa using congrArg List.length hnil
    omega
  unfold evaluate_state
  simp only [hp, Bool.false_eq_true, if_false]
  rw [if_neg (Nat.not_lt.mpr ht)]
  simp [InfiniteIterator.setCurrent, InfiniteIterator.increment,
    InfiniteIterator.current?, InfiniteIterator.check_invariants, List.length_set,
    hisE, hmod, hq]

/-- Tracker whose first (current) participant has never accrued before:
`num_turns = 0`.  Used to refute C6 as stated. -/
def exFirstTickTracker : TurnTimeTrackerState :=
  { players :=
      { items :=
          [{ display_name := "Ann", display_color := 0, num_turns := 0, total_time := 0 },
           { display_name := "Ben", display_color := 1, num_turns := 3, total_time := 7 }]
        current_index := 0 }
    timer := TimerState.Running 0 }

/-- Counterexample to C6 as stated: on a tick with next-event = true from a
state where the outgoing participant has `num_turns = 0`, the first-accrual
band-aid sets the outgoing participant's turn count to 1, so the outgoing
participant's `turn_count` IS affected by this tick (here it goes from 0 to
1). -/
theorem claim_C6_counterexample :
    ((evaluate_state exFirstTickTracker 5 false true).bind
        (fun s2 => s2.players.items[0]?)).map Player.num_turns
      ≠ (exFirstTickTracker.players.items[0]?).map Player.num_turns ∧
    ((evaluate_state exFirstTickTracker 5 false true).bind
        (fun s2 => s2.players.items[0]?)).map Player.num_turns = some 1 ∧
    (exFirstTickTracker.players.items[0]?).map Player.num_turns = some 0 := by
  refine ⟨by decide, by decide, by decide⟩

/-- Claim C6, amended: the statement holds provided the cycle has at least
two participants (so the incoming participant is distinct from the outgoing
one) and the outgoing participant's turn count is nonzero (otherwise the
first-accrual band-aid sets it to 1).  Under those conditions, a tick at
`t1 ≥ t0` with next-event = true credits `t1 - t0` to the outgoing
(pre-advance) participant, advances the cycle by one, and increments the
incoming participant's turn count by one, while the outgoing participant's
turn count is unchanged. -/
theorem claim_C6_turn_change_amended (s : TurnTimeTrackerState) (t0 t1 : Nat)
    (p : Player)
    (htimer : s.timer = TimerState.Running t0) (ht : t0 ≤ t1)
    (hcur : s.players.current? = some p)
    (hturns : p.num_turns ≠ 0)
    (hlen : 2 ≤ s.players.items.length) :
    ∃ s2, evaluate_state s t1 false true = some s2 ∧
      s2.timer = TimerState.Running t1 ∧
      s2.players.current_index
        = (s.players.current_index + 1) % s.players.items.length ∧
      (s2.players.items[s.players.current_index]?).map Player.total_time
        = some (p.total_time + (t1 - t0)) ∧
      (s2.players.items[s.players.current_index]?).map Player.num_turns
        = some p.num_turns ∧
      (s2.players.items[(s.players.current_index + 1) % s.players.items.length]?).map
          Player.num_turns
        = (s.players.items[(s.players.current_index + 1) % s.players.items.length]?).map
            (fun r => r.num_turns + 1) := by
  obtain ⟨⟨items, ci⟩, timer⟩ := s
  simp only at htimer hcur hlen ⊢
  subst htimer
  obtain ⟨hlt, hget⟩ := current?_eq_some hcur
  simp only at hlt hget
  have hlen0 : 0 < items.length := by omega
  have hmod : (ci + 1) % items.length < items.length := Nat.mod_lt _ hlen0
  have hcine : (ci + 1) % items.length ≠ ci := by
    rcases Nat.lt_or_ge (ci + 1) items.length with h | h
    · rw [Nat.mod_eq_of_lt h]
      omega
    · have hci1 : ci + 1 = items.length := by omega
      rw [hci1, Nat.mod_self]
      omega
  have hband : bandAidFirstTurn { p with total_time := p.total_time + (t1 - t0) }
      = { p with total_time := p.total_time + (t1 - t0) } :=
    bandAidFirstTurn_of_turns_ne_zero _ hturns
  have hq : (items.set ci
      (bandAidFirstTurn
        { p with total_time := p.total_time + (t1 - t0) }))[(ci + 1) % items.length]?
      = items[(ci + 1) % items.length]? := List.getElem?_set_ne (Ne.symm hcine)
  have hsomeq : items[(ci + 1) % items.length]?
      = some (items.get ⟨(ci + 1) % items.length, hmod⟩) := List.getElem?_eq_getElem hmod
  refine ⟨_, evaluate_state_next_tick items ci t0 t1 p
    (items.get ⟨(ci + 1) % items.length, hmod⟩) ht hcur (by rw [hq, hsomeq]),
    rfl, rfl, ?_, ?_, ?_⟩
  · simp only
    rw [List.getElem?_set_ne hcine, List.getElem?_set_self hlt, hband]
    rfl
  · simp only
    rw [List.getElem?_set_ne hcine, List.getElem?_set_self hlt, hband]
    rfl
  · simp only
    rw [List.getElem?_set_self (by simpa using hmod), hsomeq]
    rfl

/-- Concrete running tracker used to witness the amended C6: two
participants, both with nonzero turn counts, cursor on the first. -/
def exTurnChangeTracker : TurnTimeTrackerState :=
  { players := { items := [exAlice, exBob], current_index := 0 }
    timer := TimerState.Running 10 }

/-- Witness for the amended C6: a turn-change tick at time 25 from
`last_tick = 10`. -/
theorem claim_C6_witness :
    ∃ s2, evaluate_state exTurnChangeTracker 25 false true = some s2 ∧
      s2.timer = TimerState.Running 25 ∧
      s2.players.current_index
        = (exTurnChangeTracker.players.current_index + 1)
            % exTurnChangeTracker.players.items.length ∧
      (s2.players.items[exTurnChangeTracker.players.current_index]?).map
          Player.total_time
        = some (exAlice.total_time + (25 - 10)) ∧
      (s2.players.items[exTurnChangeTracker.players.current_index]?).map
          Player.num_turns
        = some exAlice.num_turns ∧
      (s2.players.items[(exTurnChangeTracker.players.current_index + 1)
          % exTurnChangeTracker.players.items.length]?).map Player.num_turns
        = (exTurnChangeTracker.players.items[(exTurnChangeTracker.players.current_index + 1)
            % exTurnChangeTracker.players.items.length]?).map
            (fun r => r.num_turns + 1) :=
  claim_C6_turn_change_amended exTurnChangeTracker 10 25 exAlice rfl (by decide)
    (by decide) (by decide) (by decide)

end GuiPlayground
